import Mathlib

/-!
Verification of the three-stage image pipeline in `omniscript.py`.

Modelling conventions of this shallow embedding:

* Image pixel sizes are natural numbers.  Pixel payloads are kept as an
  abstract inductive datum (`ImgData`) that records, deterministically, how
  the external image library would have produced the bytes (source datum,
  crop-and-resize parameters, grid composition with its paste positions).
  The library itself (PIL) is outside the repository; only the sizes and
  coordinates the script computes are modelled in full.
* Python evaluates `2010 / 2187`, `img_width / img_height` and the
  `math.isclose` comparison in double precision.  The embedding evaluates
  these formulas in exact rational arithmetic (`ℚ`), which agrees with the
  double-precision run on every feasible image size: the relative error of
  the stored ratio constants is below 2e-18, so `int(w * (2010/2187))`
  equals the exact rational floor for every width below roughly 4e12.
* The file system is a record of the four locations the script touches:
  the `Print`, `Share` and `Forge` directories (an `Option` that is `none`
  when `os.path.isdir` fails) plus the project-root files that receive the
  grid pages.  A directory is an association list from file name to image;
  a write puts the fresh entry in front and drops any stale entry of the
  same name.
* Fallible external calls are modelled explicitly: a per-file oracle
  (`procFail`, `copyFail`) tells which `PIL`/`shutil` operations raise.
  A Python exception that escapes a function is the `Option String`
  component of a stage result; the state component is the file system at
  the moment the exception is raised.
* Python's `sorted` on file names (code-point lexicographic, stable) is
  modelled by insertion sort over a code-point comparison; on lists of
  strings both produce the same result.
-/

/-! ### Characters and file names -/

/-- Lexicographic code-point comparison on character lists, the order Python
uses to compare `str` values. -/
def strLebL : List Char → List Char → Bool
  | [], _ => true
  | _ :: _, [] => false
  | a :: as, b :: bs =>
    if a.val < b.val then true
    else if b.val < a.val then false
    else strLebL as bs

/-- Code-point comparison on strings. -/
def strLeb (a b : String) : Bool := strLebL a.data b.data

/-- Insert a name into an already sorted list (stable for equal keys). -/
def insertSorted (a : String) : List String → List String
  | [] => [a]
  | b :: bs => if strLeb a b then a :: b :: bs else b :: insertSorted a bs

/-- Model of Python's `sorted` on a list of file names. -/
def sortNames (l : List String) : List String := l.foldr insertSorted []

/-- Lower-case the characters of a string, as `str.lower()` does on the ASCII
file-name extensions involved here. -/
def lowerChars (s : String) : List Char := s.data.map Char.toLower

/-- Model of `filename.lower().endswith(tuple_of_extensions)`. -/
def hasExt (exts : List String) (name : String) : Bool :=
  exts.any (fun e => e.data.isSuffixOf (lowerChars name))

/-- Extensions accepted by the Cropper (`crop_and_downsize_for_share`). -/
def CROP_EXTS : List String := [".png", ".jpg", ".jpeg", ".bmp", ".tiff"]

/-- Extensions accepted by the Grid Composer (`run_grid_maker`). -/
def GRID_EXTS : List String := [".png", ".jpg", ".jpeg", ".bmp", ".gif", ".tiff"]

/-- Extensions accepted by Rename/Export (`rename_for_forge`). -/
def FORGE_EXTS : List String := [".png", ".jpg", ".jpeg"]

/-- Model of `os.path.splitext` on a bare file name: split at the last dot,
unless every character before that dot is itself a dot (then there is no
extension).  Matches CPython's `genericpath._splitext` with no directory
separator present. -/
def splitextL (s : List Char) : List Char × List Char :=
  let r := s.reverse
  match r.findIdx? (fun c => c = '.') with
  | none => (s, [])
  | some j =>
    if (r.drop (j + 1)).any (fun c => c ≠ '.') then
      ((r.drop (j + 1)).reverse, (r.take (j + 1)).reverse)
    else (s, [])

/-- Character class of `base_name.lstrip('0123456789_ ')`. -/
def STRIP_CHARS : List Char := ['0', '1', '2', '3', '4', '5', '6', '7', '8', '9', '_', ' ']

/-- Model of `str.lstrip(class)`: drop leading characters while they belong
to the class. -/
def lstripL (cls : List Char) : List Char → List Char
  | [] => []
  | c :: cs => if c ∈ cls then lstripL cls cs else c :: cs

/-- The right single quotation mark U+2019 replaced by `rename_for_forge`. -/
def RIGHT_SINGLE_QUOTE : Char := '’'

/-- Name transformation of `rename_for_forge`: split off the extension,
left-strip digits, underscores and spaces, normalize the right single
quotation mark to an ASCII apostrophe, and append `.fullborder.jpg`. -/
def new_file_name_chars (file_name : List Char) : List Char :=
  let p := splitextL file_name
  let stripped_name := lstripL STRIP_CHARS p.1
  (stripped_name.map (fun c => if c = RIGHT_SINGLE_QUOTE then '\'' else c))
    ++ ".fullborder.jpg".data

/-- String form of the Rename/Export name transformation. -/
def new_file_name (s : String) : String := ⟨new_file_name_chars s.data⟩

/-! ### Images and the per-file Cropper computation -/

/-- Deterministic abstract pixel payload of a file.  `raw` is an unprocessed
source datum, `processed` records the crop-and-downscale of a datum with a
given downscale factor, `grid` records a composite canvas: its background
color and the pasted file names with their paste coordinates. -/
inductive ImgData where
  | raw : Nat → ImgData
  | processed : Nat → ImgData → ImgData
  | grid : String → List (String × Nat × Nat) → ImgData
deriving DecidableEq

/-- An image file: pixel width, pixel height and abstract payload. -/
structure Img where
  width : Nat
  height : Nat
  data : ImgData
deriving DecidableEq

/-- Reference aspect ratio `EXPECTED_ASPECT_RATIO = 2187 / 2975`. -/
def EXPECTED_ASPECT_RATIO : ℚ := 2187 / 2975

/-- Model of `math.isclose(a, b, rel_tol=1e-3)` (with the default
`abs_tol=0.0`): `abs(a-b) <= max(rel_tol * max(abs(a), abs(b)), abs_tol)`. -/
def isclose (a b : ℚ) : Bool :=
  decide (|a - b| ≤ max ((1 / 1000 : ℚ) * max |a| |b|) 0)

/-- Crop target width `int(img_width * (2010 / 2187))`. -/
def target_width (w : Nat) : Nat := w * 2010 / 2187

/-- Crop target height `int(img_height * (2814 / 2975))`. -/
def target_height (h : Nat) : Nat := h * 2814 / 2975

/-- Per-file body of `crop_and_downsize_for_share`: validate the aspect
ratio with `math.isclose`, crop the centered box (whose width and height are
exactly the crop targets), then downsize by integer division.  `none` means
the file produced no output: either the ratio check failed (skip) or the
integer division raised `ZeroDivisionError`, which the per-file handler
catches. -/
def processFile (downscale_factor : Nat) (img : Img) : Option Img :=
  if isclose ((img.width : ℚ) / (img.height : ℚ)) EXPECTED_ASPECT_RATIO then
    if downscale_factor = 0 then none
    else
      some { width := target_width img.width / downscale_factor,
             height := target_height img.height / downscale_factor,
             data := ImgData.processed downscale_factor img.data }
  else none

/-! ### The file system -/

/-- State of the four locations the script touches.  `none` for a directory
means `os.path.isdir` is false.  Association lists keep the file contents;
their order is the (deterministic, in this model) `os.listdir` order. -/
structure FS where
  projectName : String
  printDir : Option (List (String × Img))
  shareDir : Option (List (String × Img))
  forgeDir : Option (List (String × Img))
  rootFiles : List (String × Img)
deriving DecidableEq

/-- Write one file into a directory: the fresh entry goes in front and any
stale entry of the same name is dropped. -/
def ins (d : List (String × Img)) (name : String) (v : Img) : List (String × Img) :=
  (name, v) :: d.filter (fun e => e.1 ≠ name)

/-- Write a batch of files into a directory, in order. -/
def writeAll (d : List (String × Img)) (out : List (String × Img)) : List (String × Img) :=
  out.foldl (fun acc e => ins acc e.1 e.2) d

/-! ### Stage 1: Cropper/Downscaler -/

/-- Outputs written by the Cropper loop: every listed file with an accepted
extension whose processing does not raise (`procFail` is the oracle for
exceptions inside the per-file `try`) and whose aspect ratio passes,
processed by `processFile`, keyed under its unchanged file name. -/
def cropOutputs (downscale_factor : Nat) (procFail : String → Bool)
    (listing : List (String × Img)) : List (String × Img) :=
  listing.filterMap (fun e =>
    if hasExt CROP_EXTS e.1 && ! procFail e.1 then
      (processFile downscale_factor e.2).map (fun o => (e.1, o))
    else none)

/-- Stage 1, `crop_and_downsize_for_share`: skip entirely when the input
directory is missing; otherwise create the output directory and write the
processed images.  Per-file exceptions are caught, so the stage never
raises. -/
def crop_and_downsize_for_share (procFail : String → Bool) (downscale_factor : Nat)
    (fs : FS) : FS :=
  match fs.printDir with
  | none => fs
  | some listing =>
    { fs with
      shareDir := some (writeAll (fs.shareDir.getD [])
        (cropOutputs downscale_factor procFail listing)) }

/-! ### Stage 2: Grid Composer -/

/-- Number of grid pages, `math.ceil(n / images_per_grid)` for a positive
page capacity. -/
def num_grids_of (n p : Nat) : Nat := (n + p - 1) / p

/-- The page slices `image_files[start_index:end_index]` of the grid loop. -/
def gridSlices (files : List String) (p : Nat) : List (List String) :=
  (List.range (num_grids_of files.length p)).map
    (fun g => (files.drop (g * p)).take p)

/-- Output name of one grid page (1-based page number). -/
def gridFileName (projectName : String) (g : Nat) : String :=
  projectName ++ " " ++ toString (g + 1) ++ ".jpg"

/-- Paste positions of one page: for in-page index `i`, row `i // cols`,
column `i % cols`, pasted at `x = col*source_width + spacing*(col+1)`,
`y = row*source_height + spacing*(row+1)`. -/
def pagePastes (page : List String) (cols source_width source_height spacer_pixels : Nat) :
    List (String × Nat × Nat) :=
  page.enum.map (fun e =>
    let row := e.1 / cols
    let col := e.1 % cols
    (e.2, col * source_width + spacer_pixels * (col + 1),
      row * source_height + spacer_pixels * (row + 1)))

/-- The grid files written by the page loop: one canvas per page slice,
named with its 1-based page number. -/
def gridOutputs (projectName : String) (rows cols spacer_pixels : Nat)
    (background_color : String) (source_width source_height : Nat)
    (files : List String) : List (String × Img) :=
  (gridSlices files (rows * cols)).enum.map (fun e =>
    (gridFileName projectName e.1,
     { width := source_width * cols + spacer_pixels * (cols + 1),
       height := source_height * rows + spacer_pixels * (rows + 1),
       data := ImgData.grid background_color
         (pagePastes e.2 cols source_width source_height spacer_pixels) }))

/-- Look a file name up in a directory listing. -/
def lookupImg (listing : List (String × Img)) (name : String) : Option Img :=
  (listing.find? (fun e => e.1 = name)).map (fun e => e.2)

/-- Stage 2, `run_grid_maker`: skip when the source directory is missing;
return early when no accepted file is listed; raise `ZeroDivisionError`
when `rows * cols = 0` and files are present (the `math.ceil` division);
otherwise compose the pages, using the first sorted image's size for every
cell, and write them into the project root. -/
def run_grid_maker (rows cols : Nat) (background_color : String) (spacer_pixels : Nat)
    (fs : FS) : FS × Option String :=
  match fs.shareDir with
  | none => (fs, none)
  | some listing =>
    let image_files := sortNames ((listing.map (fun e => e.1)).filter (hasExt GRID_EXTS))
    match image_files with
    | [] => (fs, none)
    | first :: _ =>
      if rows * cols = 0 then (fs, some "ZeroDivisionError")
      else
        let src := (lookupImg listing first).getD { width := 0, height := 0, data := ImgData.raw 0 }
        ({ fs with
           rootFiles := writeAll fs.rootFiles
             (gridOutputs fs.projectName rows cols spacer_pixels background_color
               src.width src.height image_files) }, none)

/-! ### Stage 3: Rename/Export -/

/-- The copy loop of `rename_for_forge`.  Files with accepted extensions are
copied under their transformed names; `copyFail` is the oracle for a
`shutil.copy2` exception, which is not caught and therefore aborts the loop:
the state written so far is kept and the error propagates. -/
def renameGo (copyFail : String → Bool) :
    List (String × Img) → List (String × Img) → List (String × Img) × Option String
  | [], d => (d, none)
  | e :: rest, d =>
    if hasExt FORGE_EXTS e.1 then
      if copyFail e.1 then (d, some "copy failed")
      else renameGo copyFail rest (ins d (new_file_name e.1) e.2)
    else renameGo copyFail rest d

/-- Stage 3, `rename_for_forge`: skip when the source directory is missing;
otherwise create the destination directory and run the copy loop. -/
def rename_for_forge (copyFail : String → Bool) (fs : FS) : FS × Option String :=
  match fs.shareDir with
  | none => (fs, none)
  | some listing =>
    let r := renameGo copyFail listing (fs.forgeDir.getD [])
    ({ fs with forgeDir := some r.1 }, r.2)

/-! ### Orchestrator -/

/-- The full pipeline `run_image_pipeline`: stage 1 never raises; an
exception escaping stage 2 stops the run before stage 3; an exception in
stage 3 ends the run with the state written so far. -/
def run_image_pipeline (procFail copyFail : String → Bool)
    (grid_rows grid_cols : Nat) (bg_color : String) (spacing downscale_factor : Nat)
    (fs : FS) : FS × Option String :=
  let fs1 := crop_and_downsize_for_share procFail downscale_factor fs
  match run_grid_maker grid_rows grid_cols bg_color spacing fs1 with
  | (fs2, some e) => (fs2, some e)
  | (fs2, none) => rename_for_forge copyFail fs2

/-! ### Claim C1: Cropper output dimensions -/

/-- C1: for every image whose aspect ratio is within the 0.1 percent
relative tolerance of 2187/2975 measured against the reference constant,
and every downscale factor k ≥ 1, the Cropper produces an output of
exactly floor(floor(w*2010/2187)/k) × floor(floor(h*2814/2975)/k), the
inner floors being floors of exact rational products. -/
theorem cropper_output_dims (w h k : Nat) (d : ImgData) (hk : 1 ≤ k)
    (hratio : |(w : ℚ) / (h : ℚ) - 2187 / 2975| ≤ (2187 / 2975) * (1 / 1000)) :
    processFile k { width := w, height := h, data := d }
      = some { width := w * 2010 / 2187 / k, height := h * 2814 / 2975 / k,
               data := ImgData.processed k d }
    ∧ target_width w = ⌊(w : ℚ) * (2010 / 2187)⌋₊
    ∧ target_height h = ⌊(h : ℚ) * (2814 / 2975)⌋₊ := by
  refine ⟨?_, ?_, ?_⟩
  · have hclose : isclose ((w : ℚ) / (h : ℚ)) EXPECTED_ASPECT_RATIO = true := by
      rw [isclose, decide_eq_true_eq, EXPECTED_ASPECT_RATIO]
      refine le_max_of_le_left ?_
      calc |(w : ℚ) / (h : ℚ) - 2187 / 2975| ≤ (2187 / 2975) * (1 / 1000) := hratio
        _ = (1 / 1000 : ℚ) * |(2187 : ℚ) / 2975| := by
              rw [abs_of_nonneg (by norm_num : (0:ℚ) ≤ (2187:ℚ)/2975)]; ring
        _ ≤ (1 / 1000 : ℚ) * max |(w : ℚ) / (h : ℚ)| |(2187 : ℚ) / 2975| := by
              refine mul_le_mul_of_nonneg_left (le_max_right _ _) (by norm_num)
    have hk0 : ¬ (k = 0) := by omega
    simp only [processFile]
    rw [if_pos hclose, if_neg hk0]
    rfl
  · have h1 : ((w : ℚ) * (2010 / 2187)) = ((w * 2010 : ℕ) : ℚ) / ((2187 : ℕ) : ℚ) := by
      push_cast; ring
    rw [target_width, h1, Nat.floor_div_nat, Nat.floor_natCast]
  · have h1 : ((h : ℚ) * (2814 / 2975)) = ((h * 2814 : ℕ) : ℚ) / ((2975 : ℕ) : ℚ) := by
      push_cast; ring
    rw [target_height, h1, Nat.floor_div_nat, Nat.floor_natCast]

/-- Witness for C1 at a 2187 × 2975 source image and downscale factor 3. -/
theorem cropper_output_dims_witness :
    ((1 : Nat) ≤ 3
      ∧ |((2187 : Nat) : ℚ) / ((2975 : Nat) : ℚ) - 2187 / 2975| ≤ (2187 / 2975) * (1 / 1000))
    ∧ processFile 3 { width := 2187, height := 2975, data := ImgData.raw 0 }
      = some { width := 670, height := 938, data := ImgData.processed 3 (ImgData.raw 0) } := by
  have hr : |((2187 : Nat) : ℚ) / ((2975 : Nat) : ℚ) - 2187 / 2975| ≤ (2187 / 2975) * (1 / 1000) := by
    norm_num
  refine ⟨⟨by norm_num, hr⟩, ?_⟩
  exact (cropper_output_dims 2187 2975 3 (ImgData.raw 0) (by norm_num) hr).1

/-! ### Claim C2: the aspect-ratio acceptance predicate -/

/-- C2 counterexample: a 1106 × 1503 image is accepted and processed by the
Cropper even though its aspect ratio is outside the 0.1 percent relative
tolerance measured against the reference constant 2187/2975.  Python's
math.isclose measures the tolerance against max(current, reference). -/
theorem cropper_tolerance_counterexample :
    (processFile 1 { width := 1106, height := 1503, data := ImgData.raw 0 }).isSome = true
    ∧ ¬ (|((1106 : Nat) : ℚ) / ((1503 : Nat) : ℚ) - 2187 / 2975| ≤ (2187 / 2975) * (1 / 1000)) := by
  constructor
  · have hc : isclose (((1106 : Nat) : ℚ) / ((1503 : Nat) : ℚ)) EXPECTED_ASPECT_RATIO = true := by
      rw [isclose, decide_eq_true_eq, EXPECTED_ASPECT_RATIO]
      refine le_max_of_le_left ?_
      rw [abs_of_nonneg (by norm_num : (0:ℚ) ≤ ((1106 : Nat) : ℚ) / ((1503 : Nat) : ℚ) - 2187/2975),
        abs_of_nonneg (by norm_num : (0:ℚ) ≤ ((1106 : Nat) : ℚ) / ((1503 : Nat) : ℚ)),
        abs_of_nonneg (by norm_num : (0:ℚ) ≤ (2187:ℚ)/2975)]
      norm_num
    simp only [processFile]
    rw [if_pos hc, if_neg (by norm_num : ¬ ((1 : Nat) = 0))]
    rfl
  · rw [abs_of_nonneg (by norm_num : (0:ℚ) ≤ ((1106 : Nat) : ℚ) / ((1503 : Nat) : ℚ) - 2187/2975)]
    norm_num

/-- C2 amended: the Cropper accepts an image exactly when Python's
math.isclose symmetric relative tolerance holds, i.e.
abs(w/h - R) ≤ 1e-3 * max(w/h, R); a rejected file produces no output and
the rest of the stage is unaffected (the stage is never aborted). -/
theorem cropper_tolerance_amended (w h k : Nat) (d : ImgData) (hk : 1 ≤ k) :
    ((processFile k { width := w, height := h, data := d }).isSome
        = isclose ((w : ℚ) / (h : ℚ)) EXPECTED_ASPECT_RATIO)
    ∧ (∀ procFail : String → Bool, ∀ l1 l2 : List (String × Img), ∀ name : String, ∀ img : Img,
        isclose ((img.width : ℚ) / (img.height : ℚ)) EXPECTED_ASPECT_RATIO = false →
        cropOutputs k procFail (l1 ++ (name, img) :: l2)
          = cropOutputs k procFail l1 ++ cropOutputs k procFail l2) := by
  constructor
  · simp only [processFile]
    cases hc : isclose ((w : ℚ) / (h : ℚ)) EXPECTED_ASPECT_RATIO
    · simp
    · have hk0 : ¬ (k = 0) := by omega
      simp [hk0]
  · intro procFail l1 l2 name img hbad
    have hnone : processFile k img = none := by
      simp [processFile, hbad]
    simp only [cropOutputs, List.filterMap_append, List.filterMap_cons]
    by_cases hext : (hasExt CROP_EXTS name && ! procFail name) = true
    · simp [hext, hnone]
    · simp [hext]

/-- Witness for the amended C2 at a square 100 × 100 image (rejected) with
downscale factor 1. -/
theorem cropper_tolerance_amended_witness :
    (1 : Nat) ≤ 1
    ∧ (processFile 1 { width := 100, height := 100, data := ImgData.raw 0 }).isSome
        = isclose (((100 : Nat) : ℚ) / ((100 : Nat) : ℚ)) EXPECTED_ASPECT_RATIO :=
  ⟨le_refl 1, (cropper_tolerance_amended 100 100 1 (ImgData.raw 0) (le_refl 1)).1⟩

/-! ### Claims C5 and C10: the Rename/Export name transformation -/

/-- Splitting a name of the form `base ++ "." ++ rest` where the `rest` part
contains no dot and the base contains some non-dot character recovers exactly
that base and that extension. -/
theorem splitextL_append (base rest : List Char)
    (hb : base.any (fun c => c ≠ '.') = true)
    (hr : ∀ c ∈ rest, ¬ (c = '.')) :
    splitextL (base ++ '.' :: rest) = (base, '.' :: rest) := by
  have hrev : (base ++ '.' :: rest).reverse = rest.reverse ++ '.' :: base.reverse := by
    rw [List.reverse_append, List.reverse_cons, List.append_assoc, List.singleton_append]
  have hnone : (rest.reverse).findIdx? (fun c => decide (c = '.')) = none := by
    rw [List.findIdx?_eq_none_iff]
    intro x hx
    simp only [decide_eq_false_iff_not]
    exact hr x (List.mem_reverse.mp hx)
  have hfind : ((base ++ '.' :: rest).reverse).findIdx? (fun c => decide (c = '.'))
      = some rest.length := by
    rw [hrev, List.findIdx?_append, hnone, Option.none_or, List.findIdx?_cons]
    simp [List.length_reverse]
  simp only [splitextL, hfind]
  have hdrop : ((rest.reverse ++ '.' :: base.reverse).drop (rest.length + 1)) = base.reverse := by
    have : rest.length + 1 = rest.reverse.length + 1 := by rw [List.length_reverse]
    rw [this, List.drop_append 1, List.drop_one, List.tail_cons]
  have htake : ((rest.reverse ++ '.' :: base.reverse).take (rest.length + 1))
      = rest.reverse ++ ['.'] := by
    have : rest.length + 1 = rest.reverse.length + 1 := by rw [List.length_reverse]
    rw [this, List.take_append 1, List.take_succ_cons, List.take_zero]
  rw [hrev, hdrop, htake]
  have hany : (base.reverse).any (fun c => c ≠ '.') = true := by
    rw [List.any_reverse]; exact hb
  rw [if_pos hany, List.reverse_reverse, List.reverse_append, List.reverse_reverse]
  rfl

/-- C5: for every accepted source file `base.ext` (extension among png, jpg,
jpeg, case-insensitive), the exported name is the base name left-trimmed of
all leading ASCII digits, underscores and spaces, with every right single
quotation mark replaced by an ASCII apostrophe, and with the literal suffix
`.fullborder.jpg` in place of the original extension. -/
theorem rename_export_name (base rest : List Char)
    (_hacc : hasExt FORGE_EXTS (String.mk (base ++ '.' :: rest)) = true)
    (hb : base.any (fun c => c ≠ '.') = true)
    (hr : ∀ c ∈ rest, ¬ (c = '.')) :
    new_file_name (String.mk (base ++ '.' :: rest))
      = String.mk ((lstripL STRIP_CHARS base).map
          (fun c => if c = RIGHT_SINGLE_QUOTE then '\'' else c) ++ ".fullborder.jpg".data) := by
  show String.mk (new_file_name_chars (base ++ '.' :: rest)) = _
  rw [new_file_name_chars, splitextL_append base rest hb hr]

/-- Witness for C5: the spec's example file name. -/
theorem rename_export_name_witness :
    hasExt FORGE_EXTS "003_Sliver’s Mark.jpg" = true
    ∧ new_file_name "003_Sliver’s Mark.jpg" = "Sliver's Mark.fullborder.jpg" := by
  refine ⟨by decide, ?_⟩
  have e1 : "003_Sliver’s Mark.jpg" = String.mk ("003_Sliver’s Mark".data ++ '.' :: "jpg".data) := by
    decide
  rw [e1, rename_export_name "003_Sliver’s Mark".data "jpg".data (by decide) (by decide) (by decide)]
  decide

/-- A base name made entirely of strip-class characters strips to nothing. -/
theorem lstripL_of_all_mem (base : List Char) (hall : ∀ c ∈ base, c ∈ STRIP_CHARS) :
    lstripL STRIP_CHARS base = [] := by
  induction base with
  | nil => rfl
  | cons c cs ih =>
    rw [lstripL, if_pos (hall c (List.mem_cons_self c cs))]
    exact ih (fun x hx => hall x (List.mem_cons_of_mem c hx))

/-- C10: a source file whose base name consists entirely of ASCII digits,
underscores and spaces exports as exactly `.fullborder.jpg`, so every such
file in a run is copied to the same destination name. -/
theorem rename_all_stripped (base rest : List Char)
    (hne : base ≠ [])
    (hall : ∀ c ∈ base, c ∈ STRIP_CHARS)
    (hr : ∀ c ∈ rest, ¬ (c = '.')) :
    new_file_name (String.mk (base ++ '.' :: rest)) = ".fullborder.jpg" := by
  have hb : base.any (fun c => c ≠ '.') = true := by
    cases base with
    | nil => exact absurd rfl hne
    | cons c cs =>
      have hc : c ∈ STRIP_CHARS := hall c (List.mem_cons_self c cs)
      have : ¬ (c = '.') := by
        intro h; rw [h] at hc; revert hc; decide
      simp [this]
  show String.mk (new_file_name_chars (base ++ '.' :: rest)) = _
  rw [new_file_name_chars, splitextL_append base rest hb hr,
    lstripL_of_all_mem base hall]
  rfl

/-- Witness for C10 at the file name 0123.png. -/
theorem rename_all_stripped_witness :
    new_file_name (String.mk ("0123".data ++ '.' :: "png".data)) = ".fullborder.jpg" :=
  rename_all_stripped "0123".data "png".data (by decide) (by decide) (by decide)

/-! ### Claim C3: page partitioning of the Grid Composer -/

/-- Joining the first `m` page slices of capacity `p` yields the first
`m * p` files. -/
theorem join_slices (p : Nat) (files : List String) (m : Nat) :
    ((List.range m).map (fun g => (files.drop (g * p)).take p)).flatten
      = files.take (m * p) := by
  induction m with
  | zero => simp
  | succ m ih =>
    rw [List.range_succ, List.map_append, List.flatten_append, ih]
    simp only [List.map_cons, List.map_nil, List.flatten_cons, List.flatten_nil, List.append_nil]
    rw [← List.take_add, Nat.succ_mul]

/-- The page count is at least one when there is at least one file. -/
theorem num_grids_pos (n p : Nat) (hn : 1 ≤ n) (hp : 1 ≤ p) : 1 ≤ num_grids_of n p := by
  unfold num_grids_of
  rw [Nat.one_le_div_iff (by omega)]
  omega

/-- The pages have room for all the files. -/
theorem num_grids_mul_ge (n p : Nat) (hn : 1 ≤ n) (hp : 1 ≤ p) :
    n ≤ num_grids_of n p * p := by
  have h := Nat.div_add_mod (n + p - 1) p
  have hm := Nat.mod_lt (n + p - 1) (show 0 < p by omega)
  unfold num_grids_of
  rw [Nat.mul_comm]
  revert h
  generalize p * ((n + p - 1) / p) = t
  intro h
  omega

/-- One page fewer would not have room for all the files. -/
theorem num_grids_pred_mul_lt (n p : Nat) (hn : 1 ≤ n) (hp : 1 ≤ p) :
    (num_grids_of n p - 1) * p < n := by
  have h := Nat.div_add_mod (n + p - 1) p
  have hm := Nat.mod_lt (n + p - 1) (show 0 < p by omega)
  have h1 := num_grids_pos n p hn hp
  have hsub : (num_grids_of n p - 1) * p = num_grids_of n p * p - p := by
    rw [Nat.sub_mul, one_mul]
  rw [hsub]
  unfold num_grids_of at *
  rw [Nat.mul_comm]
  revert h h1
  generalize p * ((n + p - 1) / p) = t
  intro h h1
  omega

/-- Size of the last page: `p` when `p` divides `n`, else `n mod p`. -/
theorem last_page_len (n p : Nat) (hn : 1 ≤ n) (hp : 1 ≤ p) :
    min p (n - (num_grids_of n p - 1) * p) = if n % p = 0 then p else n % p := by
  have h1 := num_grids_pos n p hn hp
  have hub := num_grids_mul_ge n p hn hp
  have hlb := num_grids_pred_mul_lt n p hn hp
  have hmp : num_grids_of n p * p = (num_grids_of n p - 1) * p + p := by
    conv_lhs => rw [← Nat.sub_add_cancel h1]
    rw [Nat.add_mul, one_mul]
  rw [hmp] at hub
  have hub' : n ≤ p + (num_grids_of n p - 1) * p := by
    rw [Nat.add_comm]; exact hub
  have hle : n - (num_grids_of n p - 1) * p ≤ p :=
    Nat.sub_le_iff_le_add.mpr hub'
  rw [min_eq_right hle]
  by_cases hcase : n - (num_grids_of n p - 1) * p = p
  · have hn2 : n = p + (num_grids_of n p - 1) * p :=
      (Nat.sub_eq_iff_eq_add (le_of_lt hlb)).mp hcase
    have hmod : n % p = 0 := by
      rw [hn2, Nat.mul_comm, show p + p * (num_grids_of n p - 1) = p * (num_grids_of n p - 1 + 1) by ring]
      exact Nat.mul_mod_right p _
    rw [if_pos hmod]
    exact hcase
  · have hlt : n - (num_grids_of n p - 1) * p < p := lt_of_le_of_ne hle hcase
    have hkn : (num_grids_of n p - 1) * p ≤ n := le_of_lt hlb
    have hn2 : p * (num_grids_of n p - 1) + (n - (num_grids_of n p - 1) * p) = n := by
      rw [Nat.mul_comm]
      exact Nat.add_sub_cancel' hkn
    have hmod : n % p = n - (num_grids_of n p - 1) * p := by
      conv_lhs => rw [← hn2]
      rw [Nat.mul_add_mod]
      exact Nat.mod_eq_of_lt hlt
    have hne : n % p ≠ 0 := by
      rw [hmod]
      exact Nat.sub_ne_zero_of_lt hlb
    rw [if_neg hne]
    exact hmod.symm

/-- The last page slice of a nonempty run. -/
theorem gridSlices_getLast (files : List String) (p : Nat)
    (hn : 1 ≤ files.length) (hp : 1 ≤ p) :
    (gridSlices files p).getLast?
      = some ((files.drop ((num_grids_of files.length p - 1) * p)).take p) := by
  have h1 := num_grids_pos files.length p hn hp
  obtain ⟨mm, hmm⟩ : ∃ mm, num_grids_of files.length p = mm + 1 :=
    ⟨num_grids_of files.length p - 1, by omega⟩
  unfold gridSlices
  rw [hmm, List.range_succ, List.map_append, List.map_cons, List.map_nil,
    List.getLast?_concat]
  simp

/-- C3: for n ≥ 1 accepted images and page capacity p = rows*cols ≥ 1, the
Grid Composer produces exactly ceil(n/p) grid files named with page numbers
1 through ceil(n/p); the page slices concatenate back to the full sorted
list (they are non-overlapping and covering), and the last page holds
exactly n mod p images, or p when p divides n. -/
theorem grid_composer_pages (projectName background_color : String)
    (rows cols spacer_pixels source_width source_height : Nat)
    (files : List String) (hn : 1 ≤ files.length) (hp : 1 ≤ rows * cols) :
    (gridOutputs projectName rows cols spacer_pixels background_color
        source_width source_height files).map (fun e => e.1)
      = (List.range (num_grids_of files.length (rows * cols))).map (gridFileName projectName)
    ∧ (gridSlices files (rows * cols)).length = num_grids_of files.length (rows * cols)
    ∧ files.length ≤ num_grids_of files.length (rows * cols) * (rows * cols)
    ∧ (num_grids_of files.length (rows * cols) - 1) * (rows * cols) < files.length
    ∧ (gridSlices files (rows * cols)).flatten = files
    ∧ (gridSlices files (rows * cols)).getLast?.map List.length
        = some (if files.length % (rows * cols) = 0 then rows * cols
                else files.length % (rows * cols)) := by
  have hlen : (gridSlices files (rows * cols)).length
      = num_grids_of files.length (rows * cols) := by
    unfold gridSlices
    rw [List.length_map, List.length_range]
  refine ⟨?_, hlen, num_grids_mul_ge _ _ hn hp, num_grids_pred_mul_lt _ _ hn hp, ?_, ?_⟩
  · unfold gridOutputs
    rw [List.map_map]
    have hcomp : ((fun e => e.1) ∘ (fun e : Nat × List String =>
        (gridFileName projectName e.1,
         ({ width := source_width * cols + spacer_pixels * (cols + 1),
            height := source_height * rows + spacer_pixels * (rows + 1),
            data := ImgData.grid background_color
              (pagePastes e.2 cols source_width source_height spacer_pixels) } : Img))))
        = (gridFileName projectName) ∘ Prod.fst := rfl
    rw [hcomp, ← List.map_map, List.enum_map_fst, hlen]
  · unfold gridSlices
    rw [join_slices]
    exact List.take_of_length_le (num_grids_mul_ge _ _ hn hp)
  · rw [gridSlices_getLast files (rows * cols) hn hp]
    rw [Option.map_some']
    rw [List.length_take, List.length_drop]
    exact congrArg some (last_page_len files.length (rows * cols) hn hp)

/-- Witness for C3: three files in 1 × 2 pages give two grid files, the
last holding one image. -/
theorem grid_composer_pages_witness :
    ((1 : Nat) ≤ ([ "a.png", "b.png", "c.png" ] : List String).length ∧ (1 : Nat) ≤ 1 * 2)
    ∧ (gridSlices ["a.png", "b.png", "c.png"] (1 * 2)).flatten = ["a.png", "b.png", "c.png"]
    ∧ (gridSlices ["a.png", "b.png", "c.png"] (1 * 2)).getLast?.map List.length
        = some (if (["a.png", "b.png", "c.png"] : List String).length % (1 * 2) = 0
                then 1 * 2 else (["a.png", "b.png", "c.png"] : List String).length % (1 * 2)) := by
  have h := grid_composer_pages "P" "black" 1 2 0 10 20 ["a.png", "b.png", "c.png"]
    (by decide) (by decide)
  exact ⟨⟨by decide, by decide⟩, h.2.2.2.2.1, h.2.2.2.2.2⟩

/-! ### Claim C4: row-major placement inside one page -/

/-- C4: inside one page the image at in-page index i (the pages enumerate
the sorted file list) is pasted at row i / cols, column i % cols, at
coordinates x = col*source_width + spacing*(col+1) and
y = row*source_height + spacing*(row+1); index 0 lands in cell (0,0) and
index cols lands in cell (1,0). -/
theorem grid_placement (page : List String)
    (cols source_width source_height spacer_pixels : Nat)
    (hc : 1 ≤ cols) (i : Nat) (hi : i < page.length) :
    (pagePastes page cols source_width source_height spacer_pixels)[i]?
      = some (page[i],
          (i % cols) * source_width + spacer_pixels * (i % cols + 1),
          (i / cols) * source_height + spacer_pixels * (i / cols + 1))
    ∧ (0 / cols, 0 % cols) = (0, 0)
    ∧ (cols / cols, cols % cols) = (1, 0) := by
  refine ⟨?_, ?_, ?_⟩
  · unfold pagePastes
    rw [List.getElem?_map, List.getElem?_enum, List.getElem?_eq_getElem hi]
    rfl
  · rw [Nat.zero_div, Nat.zero_mod]
  · rw [Nat.div_self (by omega), Nat.mod_self]

/-- Witness for C4: the third image of a two-column page lands in the
second row, first column. -/
theorem grid_placement_witness :
    ((1 : Nat) ≤ 2 ∧ (2 : Nat) < (["a", "b", "c"] : List String).length)
    ∧ (pagePastes ["a", "b", "c"] 2 10 20 1)[2]? = some ("c", 1, 22) := by
  have h := (grid_placement ["a", "b", "c"] 2 10 20 1 (by decide) 2 (by decide)).1
  refine ⟨⟨by decide, by decide⟩, ?_⟩
  rw [h]
  decide

/-! ### Claim C6: a missing input directory skips only its own stage -/

/-- C6: a stage whose expected input directory is missing logs and returns,
changing nothing and creating no output directory, and the pipeline still
runs every subsequent stage: with both `Print` and `Share` absent the full
pipeline is a no-op that completes without an error. -/
theorem missing_dir_skips (procFail copyFail : String → Bool)
    (grid_rows grid_cols spacing downscale_factor : Nat) (bg_color : String) (fs : FS) :
    (fs.printDir = none →
        crop_and_downsize_for_share procFail downscale_factor fs = fs)
    ∧ (fs.shareDir = none →
        run_grid_maker grid_rows grid_cols bg_color spacing fs = (fs, none))
    ∧ (fs.shareDir = none →
        rename_for_forge copyFail fs = (fs, none))
    ∧ (fs.printDir = none → fs.shareDir = none →
        run_image_pipeline procFail copyFail grid_rows grid_cols bg_color spacing
          downscale_factor fs = (fs, none)) := by
  refine ⟨?_, ?_, ?_, ?_⟩
  · intro h
    unfold crop_and_downsize_for_share
    rw [h]
  · intro h
    unfold run_grid_maker
    rw [h]
  · intro h
    unfold rename_for_forge
    rw [h]
  · intro hp hs
    have h1 : crop_and_downsize_for_share procFail downscale_factor fs = fs := by
      unfold crop_and_downsize_for_share
      rw [hp]
    have h2 : run_grid_maker grid_rows grid_cols bg_color spacing fs = (fs, none) := by
      unfold run_grid_maker
      rw [hs]
    have h3 : rename_for_forge copyFail fs = (fs, none) := by
      unfold rename_for_forge
      rw [hs]
    unfold run_image_pipeline
    rw [h1]
    simp only [h2]
    exact h3

/-- Witness for C6: a file system with no `Print` and no `Share` directory
passes through the whole pipeline unchanged. -/
theorem missing_dir_skips_witness :
    (({ projectName := "P", printDir := none, shareDir := none,
        forgeDir := none, rootFiles := [] } : FS).printDir = none
      ∧ ({ projectName := "P", printDir := none, shareDir := none,
           forgeDir := none, rootFiles := [] } : FS).shareDir = none)
    ∧ run_image_pipeline (fun _ => false) (fun _ => false) 4 4 "black" 0 3
        { projectName := "P", printDir := none, shareDir := none,
          forgeDir := none, rootFiles := [] }
      = ({ projectName := "P", printDir := none, shareDir := none,
           forgeDir := none, rootFiles := [] }, none) :=
  ⟨⟨rfl, rfl⟩,
    (missing_dir_skips (fun _ => false) (fun _ => false) 4 4 0 3 "black" _).2.2.2 rfl rfl⟩

/-! ### Claim C9: zero page capacity raises before any grid is written -/

/-- C9: when the grid source directory exists and lists at least one file
with an accepted extension, `rows * cols = 0` raises a division-by-zero
error before any grid file is created (the state is unchanged); the
empty-input early return, which is a silent no-op, is taken exactly when no
accepted file is listed. -/
theorem grid_zero_capacity (rows cols spacer_pixels : Nat) (background_color : String)
    (fs : FS) (listing : List (String × Img)) (hs : fs.shareDir = some listing) :
    (sortNames ((listing.map (fun e => e.1)).filter (hasExt GRID_EXTS)) ≠ [] →
        rows * cols = 0 →
        run_grid_maker rows cols background_color spacer_pixels fs
          = (fs, some "ZeroDivisionError"))
    ∧ (sortNames ((listing.map (fun e => e.1)).filter (hasExt GRID_EXTS)) = [] →
        run_grid_maker rows cols background_color spacer_pixels fs = (fs, none)) := by
  constructor
  · intro hne hzero
    unfold run_grid_maker
    rw [hs]
    dsimp only
    cases hlist : sortNames ((listing.map (fun e => e.1)).filter (hasExt GRID_EXTS)) with
    | nil => exact absurd hlist hne
    | cons first tail =>
      simp only [hlist]
      rw [if_pos hzero]
  · intro hnil
    unfold run_grid_maker
    rw [hs]
    dsimp only
    simp only [hnil]

/-- Witness for C9: one accepted file and a 0 × 4 grid raise
`ZeroDivisionError` without writing anything. -/
theorem grid_zero_capacity_witness :
    (({ projectName := "P", printDir := none,
        shareDir := some [("a.png", { width := 1, height := 1, data := ImgData.raw 0 })],
        forgeDir := none, rootFiles := [] } : FS).shareDir
        = some [("a.png", { width := 1, height := 1, data := ImgData.raw 0 })]
      ∧ sortNames (([("a.png",
          ({ width := 1, height := 1, data := ImgData.raw 0 } : Img))].map
            (fun e => e.1)).filter (hasExt GRID_EXTS)) ≠ []
      ∧ (0 : Nat) * 4 = 0)
    ∧ run_grid_maker 0 4 "black" 0
        { projectName := "P", printDir := none,
          shareDir := some [("a.png", { width := 1, height := 1, data := ImgData.raw 0 })],
          forgeDir := none, rootFiles := [] }
      = ({ projectName := "P", printDir := none,
           shareDir := some [("a.png", { width := 1, height := 1, data := ImgData.raw 0 })],
           forgeDir := none, rootFiles := [] }, some "ZeroDivisionError") :=
  ⟨⟨rfl, by decide, rfl⟩,
    (grid_zero_capacity 0 4 0 "black" _ _ rfl).1 (by decide) rfl⟩

/-! ### Claim C7: failure isolation is per-file in the Cropper, absent in Rename/Export -/

/-- An uncaught copy failure ends the Rename/Export loop: the result is the
state after the files before the failing one, and the files after it are
never touched. -/
theorem renameGo_stops (copyFail : String → Bool) (f : String) (img : Img)
    (hf1 : hasExt FORGE_EXTS f = true) (hf2 : copyFail f = true) :
    ∀ (pre : List (String × Img)), (∀ e ∈ pre, copyFail e.1 = false) →
    ∀ (post d : List (String × Img)),
    renameGo copyFail (pre ++ (f, img) :: post) d
      = ((renameGo copyFail pre d).1, some "copy failed") := by
  intro pre
  induction pre with
  | nil =>
    intro _ post d
    simp only [List.nil_append, renameGo, hf1, hf2, if_true]
  | cons e rest ih =>
    intro hpre post d
    have he : copyFail e.1 = false := hpre e (List.mem_cons_self e rest)
    have hrest : ∀ x ∈ rest, copyFail x.1 = false :=
      fun x hx => hpre x (List.mem_cons_of_mem e hx)
    by_cases hext : hasExt FORGE_EXTS e.1 = true
    · simp only [List.cons_append, renameGo, hext, if_true, he, Bool.false_eq_true, if_false]
      exact ih hrest post _
    · simp only [List.cons_append, renameGo, if_neg hext]
      exact ih hrest post _

/-- C7: if one copy in Rename/Export raises, the stage stops there: the
destination holds exactly the copies made before the failing file and no
later file is copied; the Cropper, by contrast, catches a per-file failure
and still processes every later file of the stage. -/
theorem rename_no_isolation (copyFail procFail : String → Bool) (downscale_factor : Nat)
    (pre post : List (String × Img)) (f : String) (img : Img)
    (d : List (String × Img))
    (hpre : ∀ e ∈ pre, copyFail e.1 = false)
    (hf1 : hasExt FORGE_EXTS f = true) (hf2 : copyFail f = true)
    (hf3 : procFail f = true) :
    renameGo copyFail (pre ++ (f, img) :: post) d
      = ((renameGo copyFail pre d).1, some "copy failed")
    ∧ cropOutputs downscale_factor procFail (pre ++ (f, img) :: post)
      = cropOutputs downscale_factor procFail pre
        ++ cropOutputs downscale_factor procFail post := by
  constructor
  · exact renameGo_stops copyFail f img hf1 hf2 pre hpre post d
  · have hmid : (if hasExt CROP_EXTS f && ! procFail f then
        (processFile downscale_factor img).map (fun o => (f, o)) else none) = none := by
      rw [hf3]
      simp
    simp only [cropOutputs, List.filterMap_append, List.filterMap_cons]
    simp only [hf3]
    simp

/-- Witness for C7: with three share files and a copy failure on the middle
one, Rename/Export copies only the first file while the Cropper's outputs
skip only the failing file. -/
theorem rename_no_isolation_witness :
    ((∀ e ∈ ([("a.png", ({ width := 2187, height := 2975, data := ImgData.raw 1 } : Img))] :
        List (String × Img)), (fun s => decide (s = "b.png")) e.1 = false)
      ∧ hasExt FORGE_EXTS "b.png" = true
      ∧ (fun s => decide (s = "b.png")) "b.png" = true)
    ∧ renameGo (fun s => decide (s = "b.png"))
        [("a.png", { width := 2187, height := 2975, data := ImgData.raw 1 }),
         ("b.png", { width := 2187, height := 2975, data := ImgData.raw 2 }),
         ("c.png", { width := 2187, height := 2975, data := ImgData.raw 3 })] []
      = ((renameGo (fun s => decide (s = "b.png"))
          [("a.png", { width := 2187, height := 2975, data := ImgData.raw 1 })] []).1,
         some "copy failed")
    ∧ cropOutputs 3 (fun s => decide (s = "b.png"))
        [("a.png", { width := 2187, height := 2975, data := ImgData.raw 1 }),
         ("b.png", { width := 2187, height := 2975, data := ImgData.raw 2 }),
         ("c.png", { width := 2187, height := 2975, data := ImgData.raw 3 })]
      = cropOutputs 3 (fun s => decide (s = "b.png"))
          [("a.png", { width := 2187, height := 2975, data := ImgData.raw 1 })]
        ++ cropOutputs 3 (fun s => decide (s = "b.png"))
          [("c.png", { width := 2187, height := 2975, data := ImgData.raw 3 })] := by
  have h := rename_no_isolation (fun s => decide (s = "b.png"))
    (fun s => decide (s = "b.png")) 3
    [("a.png", { width := 2187, height := 2975, data := ImgData.raw 1 })]
    [("c.png", { width := 2187, height := 2975, data := ImgData.raw 3 })]
    "b.png" { width := 2187, height := 2975, data := ImgData.raw 2 } []
    (by decide) (by decide) (by decide) (by decide)
  exact ⟨⟨by decide, by decide, by decide⟩, h.1, h.2⟩

/-! ### Claim C8: write algebra of directories -/

/-- Whether a batch of writes contains a given file name. -/
def keyIn (out : List (String × Img)) (k : String) : Bool :=
  out.any (fun e => e.1 = k)

/-- Writing a batch into a directory splits into the batch's own files in
front and the untouched old files behind. -/
theorem writeAll_decomp (out : List (String × Img)) :
    ∀ d : List (String × Img),
    writeAll d out = writeAll [] out ++ d.filter (fun x => ! keyIn out x.1) := by
  induction out with
  | nil =>
    intro d
    show d = [] ++ d.filter (fun x => ! keyIn [] x.1)
    have : (fun x : String × Img => ! keyIn [] x.1) = fun _ => true := by
      funext x
      rfl
    rw [this, List.filter_true, List.nil_append]
  | cons e out ih =>
    intro d
    show writeAll (ins d e.1 e.2) out
        = writeAll (ins [] e.1 e.2) out ++ d.filter (fun x => ! keyIn (e :: out) x.1)
    rw [ih (ins d e.1 e.2), ih (ins [] e.1 e.2), List.append_assoc]
    congr 1
    have hins : ins [] e.1 e.2 = [(e.1, e.2)] := rfl
    rw [hins, ins]
    simp only [List.filter_cons, List.filter_nil, List.filter_filter]
    have hfun : (fun x : String × Img => ! keyIn out x.1 && decide (x.1 ≠ e.1))
        = fun x => ! keyIn (e :: out) x.1 := by
      funext x
      simp only [keyIn, List.any_cons, Bool.not_or, decide_not]
      rw [Bool.and_comm]
      have : (decide (e.1 = x.1)) = (decide (x.1 = e.1)) := by
        rcases eq_or_ne e.1 x.1 with h | h
        · rw [h]
        · rw [decide_eq_false h, decide_eq_false (fun hc => h hc.symm)]
      rw [this]
    rw [hfun]
    cases hc : keyIn out e.1 <;> simp [hc]

/-- Every file of a batch written into a directory carries one of the
batch's names or was already present. -/
theorem keyIn_of_mem_writeAll (out : List (String × Img)) :
    ∀ (d : List (String × Img)) (x : String × Img),
    x ∈ writeAll d out → keyIn out x.1 = true ∨ x ∈ d := by
  induction out with
  | nil =>
    intro d x hx
    exact Or.inr hx
  | cons e out ih =>
    intro d x hx
    have hx' : x ∈ writeAll (ins d e.1 e.2) out := hx
    rcases ih (ins d e.1 e.2) x hx' with h | h
    · left
      simp only [keyIn] at h
      simp [keyIn, h]
    · rcases List.mem_cons.mp h with h2 | h2
      · left
        simp [keyIn, h2]
      · exact Or.inr (List.mem_of_mem_filter h2)

/-- Writing the same batch a second time changes nothing. -/
theorem writeAll_idem (d out : List (String × Img)) :
    writeAll (writeAll d out) out = writeAll d out := by
  rw [writeAll_decomp out (writeAll d out), writeAll_decomp out d]
  congr 1
  rw [List.filter_append]
  have h1 : (writeAll [] out).filter (fun x => ! keyIn out x.1) = [] := by
    rw [List.filter_eq_nil_iff]
    intro x hx
    rcases keyIn_of_mem_writeAll out [] x hx with h | h
    · simp [h]
    · exact absurd h (List.not_mem_nil x)
  rw [h1, List.nil_append, List.filter_filter]
  congr 1
  funext x
  rw [Bool.and_self]

/-- The copies the Rename/Export loop performs before its first uncaught
failure. -/
def renOuts (copyFail : String → Bool) : List (String × Img) → List (String × Img)
  | [] => []
  | e :: rest =>
    if hasExt FORGE_EXTS e.1 then
      if copyFail e.1 then []
      else (new_file_name e.1, e.2) :: renOuts copyFail rest
    else renOuts copyFail rest

/-- Whether the Rename/Export loop ends in an uncaught copy failure. -/
def renErr (copyFail : String → Bool) : List (String × Img) → Option String
  | [] => none
  | e :: rest =>
    if hasExt FORGE_EXTS e.1 then
      if copyFail e.1 then some "copy failed" else renErr copyFail rest
    else renErr copyFail rest

/-- The Rename/Export loop writes exactly the pre-failure copies and
reports the first failure. -/
theorem renameGo_eq (copyFail : String → Bool) :
    ∀ (listing d : List (String × Img)),
    renameGo copyFail listing d
      = (writeAll d (renOuts copyFail listing), renErr copyFail listing) := by
  intro listing
  induction listing with
  | nil =>
    intro d
    rfl
  | cons e rest ih =>
    intro d
    cases h1 : hasExt FORGE_EXTS e.1 with
    | false =>
      simp only [renameGo, renOuts, renErr, h1, Bool.false_eq_true, if_false]
      exact ih d
    | true =>
      cases h2 : copyFail e.1 with
      | true =>
        simp only [renameGo, renOuts, renErr, h1, h2, if_true]
        rfl
      | false =>
        simp only [renameGo, renOuts, renErr, h1, h2, Bool.false_eq_true, if_false, if_true]
        exact ih (ins d (new_file_name e.1) e.2)

/-! ### Stage state lemmas for the idempotence argument -/

/-- The Cropper touches only the `Share` directory. -/
theorem crop_fields (procFail : String → Bool) (downscale_factor : Nat) (fs : FS) :
    (crop_and_downsize_for_share procFail downscale_factor fs).projectName = fs.projectName
    ∧ (crop_and_downsize_for_share procFail downscale_factor fs).printDir = fs.printDir
    ∧ (crop_and_downsize_for_share procFail downscale_factor fs).forgeDir = fs.forgeDir
    ∧ (crop_and_downsize_for_share procFail downscale_factor fs).rootFiles = fs.rootFiles := by
  unfold crop_and_downsize_for_share
  cases h : fs.printDir <;> simp [h]

/-- The Cropper with no input directory is the identity. -/
theorem crop_print_none (procFail : String → Bool) (downscale_factor : Nat) (fs : FS)
    (h : fs.printDir = none) :
    crop_and_downsize_for_share procFail downscale_factor fs = fs := by
  unfold crop_and_downsize_for_share
  rw [h]

/-- The `Share` directory the Cropper leaves behind. -/
theorem crop_shareDir_some (procFail : String → Bool) (downscale_factor : Nat) (fs : FS)
    (listing : List (String × Img)) (h : fs.printDir = some listing) :
    (crop_and_downsize_for_share procFail downscale_factor fs).shareDir
      = some (writeAll (fs.shareDir.getD [])
          (cropOutputs downscale_factor procFail listing)) := by
  unfold crop_and_downsize_for_share
  rw [h]

/-- The Grid Composer state only adds project-root files. -/
theorem grid_fields (rows cols : Nat) (bg : String) (sp : Nat) (fs : FS) :
    ((run_grid_maker rows cols bg sp fs).1).projectName = fs.projectName
    ∧ ((run_grid_maker rows cols bg sp fs).1).printDir = fs.printDir
    ∧ ((run_grid_maker rows cols bg sp fs).1).shareDir = fs.shareDir
    ∧ ((run_grid_maker rows cols bg sp fs).1).forgeDir = fs.forgeDir := by
  unfold run_grid_maker
  cases h : fs.shareDir with
  | none => simp [h]
  | some listing =>
    dsimp only
    cases sortNames ((listing.map (fun e => e.1)).filter (hasExt GRID_EXTS)) with
    | nil => simp [h]
    | cons a b =>
      by_cases hz : rows * cols = 0
      · simp [hz, h]
      · simp [hz, h]

/-- Whether the Grid Composer raises depends only on the `Share` listing. -/
theorem grid_snd_congr (rows cols : Nat) (bg : String) (sp : Nat) (fs fsB : FS)
    (h : fs.shareDir = fsB.shareDir) :
    (run_grid_maker rows cols bg sp fs).2 = (run_grid_maker rows cols bg sp fsB).2 := by
  unfold run_grid_maker
  rw [h]
  cases hB : fsB.shareDir with
  | none => rfl
  | some listing =>
    dsimp only
    cases sortNames ((listing.map (fun e => e.1)).filter (hasExt GRID_EXTS)) with
    | nil => rfl
    | cons a b =>
      by_cases hz : rows * cols = 0
      · simp [hz]
      · simp [hz]

/-- Rename/Export touches only the `Forge` directory. -/
theorem rename_fields (copyFail : String → Bool) (fs : FS) :
    ((rename_for_forge copyFail fs).1).projectName = fs.projectName
    ∧ ((rename_for_forge copyFail fs).1).printDir = fs.printDir
    ∧ ((rename_for_forge copyFail fs).1).shareDir = fs.shareDir
    ∧ ((rename_for_forge copyFail fs).1).rootFiles = fs.rootFiles := by
  unfold rename_for_forge
  cases h : fs.shareDir <;> simp [h]

/-- Rename/Export with no source directory is the identity. -/
theorem rename_share_none (copyFail : String → Bool) (fs : FS) (h : fs.shareDir = none) :
    rename_for_forge copyFail fs = (fs, none) := by
  unfold rename_for_forge
  rw [h]

/-- Rename/Export on an existing source directory writes the pre-failure
copies into `Forge` and reports the first failure. -/
theorem rename_share_some (copyFail : String → Bool) (fs : FS)
    (listing : List (String × Img)) (h : fs.shareDir = some listing) :
    rename_for_forge copyFail fs
      = ({ fs with forgeDir := some (writeAll (fs.forgeDir.getD [])
            (renOuts copyFail listing)) },
         renErr copyFail listing) := by
  unfold rename_for_forge
  rw [h]
  dsimp only
  rw [renameGo_eq]

/-- One pipeline run: `Print` is untouched, `Share` becomes exactly the
Cropper's output, and `Forge` gains the Rename/Export copies when the Grid
Composer did not raise and the `Share` directory exists. -/
theorem pipeline_run (procFail copyFail : String → Bool)
    (grid_rows grid_cols : Nat) (bg_color : String) (spacing downscale_factor : Nat)
    (g : FS) :
    ((run_image_pipeline procFail copyFail grid_rows grid_cols bg_color spacing
        downscale_factor g).1).printDir = g.printDir
    ∧ ((run_image_pipeline procFail copyFail grid_rows grid_cols bg_color spacing
        downscale_factor g).1).shareDir
        = (crop_and_downsize_for_share procFail downscale_factor g).shareDir
    ∧ ((crop_and_downsize_for_share procFail downscale_factor g).shareDir = none →
        ((run_image_pipeline procFail copyFail grid_rows grid_cols bg_color spacing
          downscale_factor g).1).forgeDir = g.forgeDir)
    ∧ (∀ ls, (crop_and_downsize_for_share procFail downscale_factor g).shareDir = some ls →
        ((run_image_pipeline procFail copyFail grid_rows grid_cols bg_color spacing
          downscale_factor g).1).forgeDir
          = (if (run_grid_maker grid_rows grid_cols bg_color spacing
                  (crop_and_downsize_for_share procFail downscale_factor g)).2 = none
             then some (writeAll (g.forgeDir.getD []) (renOuts copyFail ls))
             else g.forgeDir)) := by
  obtain ⟨cN, cP, cF, cR⟩ := crop_fields procFail downscale_factor g
  obtain ⟨gN, gP, gS, gF⟩ := grid_fields grid_rows grid_cols bg_color spacing
    (crop_and_downsize_for_share procFail downscale_factor g)
  unfold run_image_pipeline
  dsimp only
  rcases hG : run_grid_maker grid_rows grid_cols bg_color spacing
    (crop_and_downsize_for_share procFail downscale_factor g) with ⟨B, err⟩
  simp only [hG] at gN gP gS gF
  cases err with
  | some e0 =>
    dsimp only
    refine ⟨?_, ?_, ?_, ?_⟩
    · rw [gP, cP]
    · exact gS
    · intro _
      rw [gF, cF]
    · intro ls hls
      rw [if_neg (by simp)]
      rw [gF, cF]
  | none =>
    dsimp only
    obtain ⟨rN, rP, rS, rR⟩ := rename_fields copyFail B
    refine ⟨?_, ?_, ?_, ?_⟩
    · rw [rP, gP, cP]
    · rw [rS, gS]
    · intro h
      have hBs : B.shareDir = none := by rw [gS]; exact h
      rw [rename_share_none copyFail B hBs]
      dsimp only
      rw [gF, cF]
    · intro ls hls
      have hBs : B.shareDir = some ls := by rw [gS]; exact hls
      rw [rename_share_some copyFail B ls hBs]
      dsimp only
      rw [if_pos rfl]
      rw [gF, cF]

/-- C8: running the pipeline a second time with the same parameters on an
unchanged `Print` directory leaves the `Share` and `Forge` directories
byte-for-byte as the first run left them: the second run overwrites each of
its outputs with identical content. -/
theorem pipeline_idempotent (procFail copyFail : String → Bool)
    (grid_rows grid_cols : Nat) (bg_color : String) (spacing downscale_factor : Nat)
    (fs : FS) :
    ((run_image_pipeline procFail copyFail grid_rows grid_cols bg_color spacing
        downscale_factor
        ((run_image_pipeline procFail copyFail grid_rows grid_cols bg_color spacing
          downscale_factor fs).1)).1).shareDir
      = ((run_image_pipeline procFail copyFail grid_rows grid_cols bg_color spacing
          downscale_factor fs).1).shareDir
    ∧ ((run_image_pipeline procFail copyFail grid_rows grid_cols bg_color spacing
        downscale_factor
        ((run_image_pipeline procFail copyFail grid_rows grid_cols bg_color spacing
          downscale_factor fs).1)).1).forgeDir
      = ((run_image_pipeline procFail copyFail grid_rows grid_cols bg_color spacing
          downscale_factor fs).1).forgeDir := by
  obtain ⟨h1p, h1s, h1f0, h1f⟩ := pipeline_run procFail copyFail grid_rows grid_cols
    bg_color spacing downscale_factor fs
  set fs1 := (run_image_pipeline procFail copyFail grid_rows grid_cols bg_color spacing
    downscale_factor fs).1 with hfs1
  obtain ⟨h2p, h2s, h2f0, h2f⟩ := pipeline_run procFail copyFail grid_rows grid_cols
    bg_color spacing downscale_factor fs1
  have hshare : (crop_and_downsize_for_share procFail downscale_factor fs1).shareDir
      = fs1.shareDir := by
    cases hp : fs.printDir with
    | none =>
      have hp1 : fs1.printDir = none := by rw [h1p, hp]
      rw [crop_print_none procFail downscale_factor fs1 hp1]
    | some l =>
      have hp1 : fs1.printDir = some l := by rw [h1p, hp]
      have hS1 : fs1.shareDir = some (writeAll (fs.shareDir.getD [])
          (cropOutputs downscale_factor procFail l)) := by
        rw [h1s, crop_shareDir_some procFail downscale_factor fs l hp]
      rw [crop_shareDir_some procFail downscale_factor fs1 l hp1, hS1,
        Option.getD_some, writeAll_idem]
  constructor
  · rw [h2s, hshare]
  · cases hcs : (crop_and_downsize_for_share procFail downscale_factor fs).shareDir with
    | none =>
      have hcs1 : (crop_and_downsize_for_share procFail downscale_factor fs1).shareDir
          = none := by
        rw [hshare, h1s, hcs]
      exact h2f0 hcs1
    | some ls =>
      have hcs1 : (crop_and_downsize_for_share procFail downscale_factor fs1).shareDir
          = some ls := by
        rw [hshare, h1s, hcs]
      have hgr : (run_grid_maker grid_rows grid_cols bg_color spacing
            (crop_and_downsize_for_share procFail downscale_factor fs1)).2
          = (run_grid_maker grid_rows grid_cols bg_color spacing
            (crop_and_downsize_for_share procFail downscale_factor fs)).2 :=
        grid_snd_congr grid_rows grid_cols bg_color spacing _ _ (by rw [hcs1, hcs])
      rw [h2f ls hcs1, hgr]
      cases hge : (run_grid_maker grid_rows grid_cols bg_color spacing
          (crop_and_downsize_for_share procFail downscale_factor fs)).2 with
      | some e0 =>
        rw [if_neg (by simp)]
      | none =>
        rw [if_pos rfl]
        have hforge1 : fs1.forgeDir = some (writeAll (fs.forgeDir.getD [])
            (renOuts copyFail ls)) := by
          rw [h1f ls hcs, hge, if_pos rfl]
        rw [hforge1, Option.getD_some, writeAll_idem]
